import Mathlib

/-!
Verification of the Tessendorf ocean spectral-synthesis engine of
`Tess_Waves.py` (functions `phillips_spectrum` and `tessendorf_displacement`).

The Python code is shallowly embedded over the real numbers.  Machine floats
become `ℝ`; the process-wide pseudo-random generator (`random.seed` /
`random.gauss`) becomes an explicit state machine `RNGImpl`: a state type `σ`,
a reseed function `seedFn`, and a step `gaussStep` returning one standard
normal draw together with the successor state.  `tessendorf_displacement`
takes the incoming global generator state and returns the final state next to
its `(height, displacement_x, displacement_z)` triple, exactly as the Python
function mutates the global generator.
-/

/-- An implementation of the mutable global random generator used by the code:
`seedFn` models `random.seed(seed)` (the old state is discarded), `gaussStep`
models one call of `random.gauss(0, 1)`. -/
structure RNGImpl (σ : Type) where
  seedFn : ℤ → σ
  gaussStep : σ → ℝ × σ

/-- The generator state after `n` Gaussian draws from state `s`. -/
def rngStates {σ : Type} (R : RNGImpl σ) (s : σ) : ℕ → σ
  | 0 => s
  | n + 1 => (R.gaussStep (rngStates R s n)).2

/-- The stream of Gaussian draws produced from state `s`: draw `n` is the
value returned by the `n`-th call of `random.gauss(0, 1)`. -/
noncomputable def rngStream {σ : Type} (R : RNGImpl σ) (s : σ) (n : ℕ) : ℝ :=
  (R.gaussStep (rngStates R s n)).1

/-- Embedding of `phillips_spectrum(kx, kz, wind_speed, wind_dir_x,
wind_dir_z, gravity=9.81)` from `Tess_Waves.py`, lines 6-56.  The wind-default
branch (`if wind_length < 0.0001: wind_dir_x, wind_dir_z = 1.0, 0.0;
wind_length = 1.0`) is rendered by the three inner `if`s. -/
noncomputable def phillips_spectrum (kx kz wind_speed wind_dir_x wind_dir_z gravity : ℝ) : ℝ :=
  let k_length := Real.sqrt (kx * kx + kz * kz)
  if k_length < 0.0001 then 0
  else
    let L := wind_speed * wind_speed / gravity
    let wind_length := Real.sqrt (wind_dir_x * wind_dir_x + wind_dir_z * wind_dir_z)
    let wx := (if wind_length < 0.0001 then 1 else wind_dir_x) /
      (if wind_length < 0.0001 then 1 else wind_length)
    let wz := (if wind_length < 0.0001 then 0 else wind_dir_z) /
      (if wind_length < 0.0001 then 1 else wind_length)
    let k_dot_w0 := (kx * wx + kz * wz) / k_length
    let k_dot_w := if k_dot_w0 < 0 then 0 else k_dot_w0
    let k_length_2 := k_length * k_length
    let k_length_4 := k_length_2 * k_length_2
    let kL := k_length * L
    let exp_term := Real.exp (-1 / (kL * kL)) *
      Real.exp (-k_length_2 * (L / 1000) * (L / 1000))
    0.0081 * exp_term / k_length_4 * (k_dot_w * k_dot_w)

/-- The variant of `phillips_spectrum` with the `if k_dot_w < 0.0` clamp
removed, squaring `k_dot_w` directly (the comparison definition named by the
remark of the spec that the clamp is redundant). -/
noncomputable def phillips_noclamp (kx kz wind_speed wind_dir_x wind_dir_z gravity : ℝ) : ℝ :=
  let k_length := Real.sqrt (kx * kx + kz * kz)
  if k_length < 0.0001 then 0
  else
    let L := wind_speed * wind_speed / gravity
    let wind_length := Real.sqrt (wind_dir_x * wind_dir_x + wind_dir_z * wind_dir_z)
    let wx := (if wind_length < 0.0001 then 1 else wind_dir_x) /
      (if wind_length < 0.0001 then 1 else wind_length)
    let wz := (if wind_length < 0.0001 then 0 else wind_dir_z) /
      (if wind_length < 0.0001 then 1 else wind_length)
    let k_dot_w := (kx * wx + kz * wz) / k_length
    let k_length_2 := k_length * k_length
    let k_length_4 := k_length_2 * k_length_2
    let kL := k_length * L
    let exp_term := Real.exp (-1 / (kL * kL)) *
      Real.exp (-k_length_2 * (L / 1000) * (L / 1000))
    0.0081 * exp_term / k_length_4 * (k_dot_w * k_dot_w)

/-- The consecutive integers `a, a + 1, ..., a + len - 1`. -/
def pyRangeAux (a : ℤ) : ℕ → List ℤ
  | 0 => []
  | len + 1 => a :: pyRangeAux (a + 1) len

/-- The Python `range(a, b)` over the integers. -/
def pyRange (a b : ℤ) : List ℤ := pyRangeAux a (b - a).toNat

/-- The iteration space of the nested loops
`for nx in range(-resolution//2, resolution//2): for nz in range(...)`,
in sweep order (`//` is Python floor division, `Int.fdiv`). -/
def latticePairs (resolution : ℤ) : List (ℤ × ℤ) :=
  pyRange (Int.fdiv (-resolution) 2) (Int.fdiv resolution 2) ×ˢ
    pyRange (Int.fdiv (-resolution) 2) (Int.fdiv resolution 2)

/-- The wave vectors actually swept by the summation loop: the loop body is
reached for every pair of `latticePairs` except `(0, 0)`, which is skipped by
`if nx == 0 and nz == 0: continue`. -/
def sweptPairs (resolution : ℤ) : List (ℤ × ℤ) :=
  (latticePairs resolution).filter fun p => !(p.1 = 0 && p.2 = 0)

/-- One iteration of the summation loop of `tessendorf_displacement`
(`Tess_Waves.py` lines 75-120), acting on the accumulator
`((height, displacement_x, displacement_z), generator state)`. -/
noncomputable def tessStep {σ : Type} (R : RNGImpl σ)
    (x z time dk wind_speed wind_dir_x wind_dir_z wave_amplitude choppiness : ℝ)
    (acc : (ℝ × ℝ × ℝ) × σ) (p : ℤ × ℤ) : (ℝ × ℝ × ℝ) × σ :=
  if p.1 = 0 ∧ p.2 = 0 then acc
  else
    let kx := (p.1 : ℝ) * dk
    let kz := (p.2 : ℝ) * dk
    let k_length := Real.sqrt (kx * kx + kz * kz)
    if k_length < 0.0001 then acc
    else
      let P_k := phillips_spectrum kx kz wind_speed wind_dir_x wind_dir_z 9.81
      let g1 := (R.gaussStep acc.2).1
      let s1 := (R.gaussStep acc.2).2
      let g2 := (R.gaussStep s1).1
      let s2 := (R.gaussStep s1).2
      let h0_real := g1 * Real.sqrt (P_k * 0.5)
      let h0_imag := g2 * Real.sqrt (P_k * 0.5)
      let omega := Real.sqrt (9.81 * k_length)
      let phase := omega * time
      let ht_real := h0_real * Real.cos phase - h0_imag * Real.sin phase
      let ht_imag := h0_real * Real.sin phase + h0_imag * Real.cos phase
      let spatial_phase := kx * x + kz * z
      let wave_contribution :=
        (ht_real * Real.cos spatial_phase - ht_imag * Real.sin spatial_phase) * wave_amplitude
      ((acc.1.1 + wave_contribution,
        (if 0.0001 < k_length then
          acc.1.2.1 + -choppiness * (kx / k_length) * wave_contribution
        else acc.1.2.1),
        (if 0.0001 < k_length then
          acc.1.2.2 + -choppiness * (kz / k_length) * wave_contribution
        else acc.1.2.2)), s2)

/-- Embedding of `tessendorf_displacement` (`Tess_Waves.py` lines 58-122).
`s0` is the state of the process-wide generator when the function is entered;
it is discarded by `random.seed(seed)` before the lattice sweep. -/
noncomputable def tessendorf_displacement {σ : Type} (R : RNGImpl σ)
    (x z time : ℝ) (resolution : ℤ)
    (patch_size wind_speed wind_dir_x wind_dir_z wave_amplitude choppiness : ℝ)
    (seed : ℤ) (s0 : σ) : (ℝ × ℝ × ℝ) × σ :=
  let dk := 2 * Real.pi / patch_size
  (latticePairs resolution).foldl
    (tessStep R x z time dk wind_speed wind_dir_x wind_dir_z wave_amplitude choppiness)
    ((0, 0, 0), R.seedFn seed)

/-- Runtime behaviour of a call of `tessendorf_displacement` in Python: the
first executed statement divides by `patch_size` (`dk = 2.0 * math.pi /
patch_size`), which raises `ZeroDivisionError` when `patch_size` is zero.
Every later operation is total for nonzero `wind_speed` (the `|k| < 1e-4`
guards keep all other divisors nonzero, and every `math.sqrt` argument is
nonnegative because the spectrum is nonnegative), which covers all parameter
instantiations used in the theorems below. -/
noncomputable def tessendorf_run {σ : Type} (R : RNGImpl σ)
    (x z time : ℝ) (resolution : ℤ)
    (patch_size wind_speed wind_dir_x wind_dir_z wave_amplitude choppiness : ℝ)
    (seed : ℤ) (s0 : σ) : Except String ((ℝ × ℝ × ℝ) × σ) :=
  if patch_size = 0 then Except.error "ZeroDivisionError"
  else Except.ok (tessendorf_displacement R x z time resolution patch_size wind_speed
    wind_dir_x wind_dir_z wave_amplitude choppiness seed s0)

/-- The `wave_contribution` value computed by one loop iteration of
`tessendorf_displacement` at lattice index `(a, b)` from generator state `s`
(first draw `g1`, second draw `g2`). -/
noncomputable def waveContribution {σ : Type} (R : RNGImpl σ)
    (x z time dk wind_speed wind_dir_x wind_dir_z wave_amplitude : ℝ)
    (s : σ) (a b : ℤ) : ℝ :=
  let kx := (a : ℝ) * dk
  let kz := (b : ℝ) * dk
  let k_length := Real.sqrt (kx * kx + kz * kz)
  let P_k := phillips_spectrum kx kz wind_speed wind_dir_x wind_dir_z 9.81
  let g1 := (R.gaussStep s).1
  let g2 := (R.gaussStep (R.gaussStep s).2).1
  let h0_real := g1 * Real.sqrt (P_k * 0.5)
  let h0_imag := g2 * Real.sqrt (P_k * 0.5)
  let omega := Real.sqrt (9.81 * k_length)
  let phase := omega * time
  let ht_real := h0_real * Real.cos phase - h0_imag * Real.sin phase
  let ht_imag := h0_real * Real.sin phase + h0_imag * Real.cos phase
  let spatial_phase := kx * x + kz * z
  (ht_real * Real.cos spatial_phase - ht_imag * Real.sin spatial_phase) * wave_amplitude

/-- Per-wave contribution triple exactly as the specification words it: the
Phillips energy `P` of `k = (nx·dk, nz·dk)`, the complex Gaussian amplitude
`h0 = (g1·sqrt(P/2), g2·sqrt(P/2))`, rotation by the dispersion phase
`ω·t` with `ω = sqrt(9.81·|k|)`, real contribution
`amplitude·(ht_real·cos φ − ht_imag·sin φ)` at spatial phase
`φ = kx·x + kz·z`, and horizontal displacement
`−choppiness · k̂ · contribution`. -/
noncomputable def specWaveTerm
    (g1 g2 x z time dk wind_speed wind_dir_x wind_dir_z wave_amplitude choppiness : ℝ)
    (nx nz : ℤ) : ℝ × ℝ × ℝ :=
  let kx := (nx : ℝ) * dk
  let kz := (nz : ℝ) * dk
  let kmag := Real.sqrt (kx * kx + kz * kz)
  let P := phillips_spectrum kx kz wind_speed wind_dir_x wind_dir_z 9.81
  let h0_real := g1 * Real.sqrt (P / 2)
  let h0_imag := g2 * Real.sqrt (P / 2)
  let omega := Real.sqrt (9.81 * kmag)
  let ht_real := h0_real * Real.cos (omega * time) - h0_imag * Real.sin (omega * time)
  let ht_imag := h0_real * Real.sin (omega * time) + h0_imag * Real.cos (omega * time)
  let phi := kx * x + kz * z
  let contribution := wave_amplitude * (ht_real * Real.cos phi - ht_imag * Real.sin phi)
  (contribution,
    -(choppiness * (kx / kmag) * contribution),
    -(choppiness * (kz / kmag) * contribution))

/-- The direct Tessendorf double sum as claimed: every lattice wave vector
except `(0, 0)` contributes one `specWaveTerm`, consuming two Gaussian draws
from the seeded source in lattice sweep order (`j` is the index of the next
unconsumed draw). -/
noncomputable def specSweep
    (g : ℕ → ℝ) (x z time dk wind_speed wind_dir_x wind_dir_z wave_amplitude choppiness : ℝ) :
    List (ℤ × ℤ) → ℕ → ℝ × ℝ × ℝ
  | [], _ => (0, 0, 0)
  | p :: rest, j =>
    if p.1 = 0 ∧ p.2 = 0 then
      specSweep g x z time dk wind_speed wind_dir_x wind_dir_z wave_amplitude choppiness rest j
    else
      specWaveTerm (g j) (g (j + 1)) x z time dk wind_speed wind_dir_x wind_dir_z
        wave_amplitude choppiness p.1 p.2 +
      specSweep g x z time dk wind_speed wind_dir_x wind_dir_z wave_amplitude choppiness
        rest (j + 2)

/-- The whole specification-side evaluation: `dk = 2π/patch_size` and the
double sum over the lattice, starting at draw index 0. -/
noncomputable def specEvaluate
    (g : ℕ → ℝ) (x z time : ℝ) (resolution : ℤ)
    (patch_size wind_speed wind_dir_x wind_dir_z wave_amplitude choppiness : ℝ) : ℝ × ℝ × ℝ :=
  specSweep g x z time (2 * Real.pi / patch_size) wind_speed wind_dir_x wind_dir_z
    wave_amplitude choppiness (latticePairs resolution) 0

/-- Number of Gaussian draws consumed by the loop body over a pair list when
no sub-threshold wave vector occurs: two per pair other than `(0, 0)`. -/
def drawCount : List (ℤ × ℤ) → ℕ
  | [] => 0
  | p :: rest => (if p.1 = 0 ∧ p.2 = 0 then 0 else 2) + drawCount rest

/-- The Phillips spectrum as the specification states it:
`P(k) = A · exp(−1/(|k|·L)²) · exp(−|k|²·(L/1000)²) / |k|⁴ · cosθ²` with
`A = 0.0081`, `L = wind_speed²/9.81`, `cosθ` the dot product of the unit wave
vector with the unit wind vector clamped below at 0, a near-zero wind
direction replaced by `(1, 0)`, and `0` below the `|k| < 1e-4` cutoff. -/
noncomputable def phillipsFormula (kx kz wind_speed wind_dir_x wind_dir_z : ℝ) : ℝ :=
  let kmag := Real.sqrt (kx ^ 2 + kz ^ 2)
  if kmag < 0.0001 then 0
  else
    let A := 0.0081
    let L := wind_speed ^ 2 / 9.81
    let wmag := Real.sqrt (wind_dir_x ^ 2 + wind_dir_z ^ 2)
    let ux := if wmag < 0.0001 then 1 else wind_dir_x / wmag
    let uz := if wmag < 0.0001 then 0 else wind_dir_z / wmag
    let cosTheta := max ((kx / kmag) * ux + (kz / kmag) * uz) 0
    A * Real.exp (-1 / (kmag * L) ^ 2) * Real.exp (-kmag ^ 2 * (L / 1000) ^ 2) /
      kmag ^ 4 * cosTheta ^ 2

/-- The lattice index range claimed by the specification, read with exact
(rational) division: `n ∈ [−resolution/2, resolution/2)`. -/
def claimRange (resolution n : ℤ) : Prop :=
  -(resolution : ℚ) / 2 ≤ (n : ℚ) ∧ (n : ℚ) < (resolution : ℚ) / 2

instance (resolution n : ℤ) : Decidable (claimRange resolution n) := by
  unfold claimRange; infer_instance

/-- A concrete generator over state `ℕ`: reseeding resets the counter to 0 and
draw `n` is `1` at `n = 8` and `0` elsewhere. -/
noncomputable def gDelta : ℕ → ℝ := fun n => if n = 8 then 1 else 0

/-- The `RNGImpl` packaging of `gDelta`. -/
noncomputable def RDelta : RNGImpl ℕ :=
  ⟨fun _ => 0, fun n => (gDelta n, n + 1)⟩

/-! ### Basic lemmas about the embedding -/

theorem mem_pyRangeAux (n : ℤ) :
    ∀ (len : ℕ) (a : ℤ), n ∈ pyRangeAux a len ↔ a ≤ n ∧ n < a + len := by
  intro len
  induction len with
  | zero => intro a; simp [pyRangeAux]
  | succ m ih => intro a; simp [pyRangeAux, ih]; omega

theorem mem_pyRange {a b n : ℤ} : n ∈ pyRange a b ↔ a ≤ n ∧ n < b := by
  unfold pyRange
  rw [mem_pyRangeAux]
  omega

theorem clamp_mul_self (c : ℝ) :
    (if c < 0 then (0 : ℝ) else c) * (if c < 0 then (0 : ℝ) else c) = max c 0 ^ 2 := by
  rcases lt_or_le c 0 with h | h
  · simp [if_pos h, max_eq_right h.le]
  · simp only [if_neg (not_lt.mpr h), max_eq_left h]
    ring

/-! ### Claim theorems -/

/-- C7: under the stated preconditions neither function has a failure mode:
the Phillips spectrum always returns a nonnegative value (in this
real-number model every produced value is a finite real, so finiteness of
the outputs of both functions is automatic, and the `|k| < 1e-4` guard is exactly
what makes the `1/|k|⁴` factor unreachable at the origin).  Proved without
even needing the `wind_speed > 0` precondition. -/
theorem phillips_spectrum_nonneg (kx kz wind_speed wind_dir_x wind_dir_z gravity : ℝ) :
    0 ≤ phillips_spectrum kx kz wind_speed wind_dir_x wind_dir_z gravity := by
  simp only [phillips_spectrum]
  split_ifs
  · exact le_rfl
  all_goals exact mul_nonneg (by positivity) (mul_self_nonneg _)

/-- C3: for fixed inputs and parameters (including the seed) the returned
triple is independent of the incoming global generator state, because
`random.seed(seed)` is executed at the start of every call: evaluating from
any two prior states `s0`, `s1` gives the same triple, and in particular a
second evaluation — after the generator was advanced by an evaluation at any
other point `(x2, z2, time2)` — returns exactly the first triple again. -/
theorem tessendorf_displacement_deterministic {σ : Type} (R : RNGImpl σ)
    (x z time x2 z2 time2 : ℝ) (resolution : ℤ)
    (patch_size wind_speed wind_dir_x wind_dir_z wave_amplitude choppiness : ℝ)
    (seed : ℤ) (s0 s1 : σ) :
    (tessendorf_displacement R x z time resolution patch_size wind_speed wind_dir_x
        wind_dir_z wave_amplitude choppiness seed s0).1 =
      (tessendorf_displacement R x z time resolution patch_size wind_speed wind_dir_x
        wind_dir_z wave_amplitude choppiness seed s1).1 ∧
    (tessendorf_displacement R x z time resolution patch_size wind_speed wind_dir_x
        wind_dir_z wave_amplitude choppiness seed
        (tessendorf_displacement R x2 z2 time2 resolution patch_size wind_speed wind_dir_x
          wind_dir_z wave_amplitude choppiness seed s0).2).1 =
      (tessendorf_displacement R x z time resolution patch_size wind_speed wind_dir_x
        wind_dir_z wave_amplitude choppiness seed s0).1 :=
  ⟨rfl, rfl⟩

/-- C2: for `wind_speed > 0`, `phillips_spectrum` returns `0` when
`|k| < 1e-4` and otherwise exactly
`A · exp(−1/(|k|·L)²) · exp(−|k|²·(L/1000)²) / |k|⁴ · cosθ²` with
`A = 0.0081`, `L = wind_speed²/9.81`, and `cosθ` the dot product of the unit
wave vector with the unit wind vector clamped below at 0, a near-zero wind
direction being replaced by `(1, 0)` and any other wind direction entering
only through its unit vector. -/
theorem phillips_spectrum_eq_formula (kx kz wind_speed wind_dir_x wind_dir_z : ℝ)
    (hws : 0 < wind_speed) :
    phillips_spectrum kx kz wind_speed wind_dir_x wind_dir_z 9.81 =
      phillipsFormula kx kz wind_speed wind_dir_x wind_dir_z := by
  have hk : Real.sqrt (kx ^ 2 + kz ^ 2) = Real.sqrt (kx * kx + kz * kz) := by
    congr 1; ring
  have hw : Real.sqrt (wind_dir_x ^ 2 + wind_dir_z ^ 2) =
      Real.sqrt (wind_dir_x * wind_dir_x + wind_dir_z * wind_dir_z) := by
    congr 1; ring
  simp only [phillips_spectrum, phillipsFormula, hk, hw]
  by_cases h1 : Real.sqrt (kx * kx + kz * kz) < 0.0001
  · rw [if_pos h1, if_pos h1]
  · rw [if_neg h1, if_neg h1]
    have hL2 : wind_speed ^ 2 / 9.81 = wind_speed * wind_speed / 9.81 := by ring
    rw [hL2]
    set K := Real.sqrt (kx * kx + kz * kz) with hK
    set W := Real.sqrt (wind_dir_x * wind_dir_x + wind_dir_z * wind_dir_z) with hW
    set L := wind_speed * wind_speed / 9.81 with hL
    have e1 : Real.exp (-1 / (K * L * (K * L))) = Real.exp (-1 / (K * L) ^ 2) := by
      congr 1; ring
    have e2 : Real.exp (-(K * K) * (L / 1000) * (L / 1000)) =
        Real.exp (-K ^ 2 * (L / 1000) ^ 2) := by
      congr 1; ring
    by_cases h2 : W < 0.0001
    · simp only [if_pos h2]
      rw [clamp_mul_self]
      have hc : (kx * (1 / 1) + kz * (0 / 1)) / K = kx / K * 1 + kz / K * 0 := by ring
      rw [hc, e1, e2]
      ring
    · simp only [if_neg h2]
      rw [clamp_mul_self]
      have hc : (kx * (wind_dir_x / W) + kz * (wind_dir_z / W)) / K =
          kx / K * (wind_dir_x / W) + kz / K * (wind_dir_z / W) := by ring
      rw [hc, e1, e2]
      ring

/-- Witness for C2 at the concrete input `(kx, kz) = (1, 0)`,
`wind_speed = 15`, `wind_dir = (1, 0)`. -/
theorem phillips_spectrum_eq_formula_witness :
    (0 : ℝ) < 15 ∧
      phillips_spectrum 1 0 15 1 0 9.81 = phillipsFormula 1 0 15 1 0 :=
  ⟨by norm_num, phillips_spectrum_eq_formula 1 0 15 1 0 (by norm_num)⟩

/-- C4 (amended): the lattice swept by `tessendorf_displacement` is exactly
the set of integer pairs `(nx, nz)` with `nx, nz ∈ [⌊-resolution/2⌋,
⌊resolution/2⌋)` — Python floor division, not exact halves — with `(0, 0)`
excluded. -/
theorem sweptPairs_mem (resolution : ℤ) (p : ℤ × ℤ) :
    p ∈ sweptPairs resolution ↔
      Int.fdiv (-resolution) 2 ≤ p.1 ∧ p.1 < Int.fdiv resolution 2 ∧
      Int.fdiv (-resolution) 2 ≤ p.2 ∧ p.2 < Int.fdiv resolution 2 ∧
      ¬(p.1 = 0 ∧ p.2 = 0) := by
  rcases p with ⟨n, m⟩
  simp only [sweptPairs, latticePairs, List.mem_filter, List.mem_product, mem_pyRange,
    Bool.not_eq_true', Bool.and_eq_true, decide_eq_true_eq, Bool.and_eq_false_iff,
    decide_eq_false_iff_not]
  tauto

/-- C4 counterexample: for `resolution = 5` the code sweeps `(-3, 0)` although
`-3` lies outside the claimed half-open range `[-5/2, 5/2)`, and does not
sweep `(2, 0)` although `2` lies inside it. -/
theorem sweptPairs_range_counterexample :
    ((-3, 0) : ℤ × ℤ) ∈ sweptPairs 5 ∧ ¬ claimRange 5 (-3) ∧
      ((2, 0) : ℤ × ℤ) ∉ sweptPairs 5 ∧ claimRange 5 2 := by
  refine ⟨by decide, ?_, by decide, ?_⟩
  · unfold claimRange
    push_cast
    norm_num
  · unfold claimRange
    push_cast
    norm_num

/-- C5 (amended): removing the clamp is value-preserving only where the
alignment is nonnegative: if the wave vector does not oppose the effective
wind direction (`0 ≤ kx` when the wind direction degenerates to `(1, 0)`,
`0 ≤ kx·wdx + kz·wdz` otherwise), the clamped and unclamped spectra agree. -/
theorem phillips_clamp_redundant_of_aligned (kx kz wind_speed wind_dir_x wind_dir_z : ℝ)
    (h1 : Real.sqrt (wind_dir_x * wind_dir_x + wind_dir_z * wind_dir_z) < 0.0001 → 0 ≤ kx)
    (h2 : ¬ Real.sqrt (wind_dir_x * wind_dir_x + wind_dir_z * wind_dir_z) < 0.0001 →
      0 ≤ kx * wind_dir_x + kz * wind_dir_z) :
    phillips_spectrum kx kz wind_speed wind_dir_x wind_dir_z 9.81 =
      phillips_noclamp kx kz wind_speed wind_dir_x wind_dir_z 9.81 := by
  simp only [phillips_spectrum, phillips_noclamp]
  by_cases hk : Real.sqrt (kx * kx + kz * kz) < 0.0001
  · rw [if_pos hk, if_pos hk]
  · rw [if_neg hk, if_neg hk]
    have hkpos : 0 < Real.sqrt (kx * kx + kz * kz) :=
      lt_of_lt_of_le (by norm_num) (not_lt.mp hk)
    by_cases hw : Real.sqrt (wind_dir_x * wind_dir_x + wind_dir_z * wind_dir_z) < 0.0001
    · simp only [if_pos hw]
      have hx : kx * (1 / 1) + kz * (0 / 1) = kx := by ring
      have hnn : 0 ≤ (kx * (1 / 1) + kz * (0 / 1)) / Real.sqrt (kx * kx + kz * kz) := by
        rw [hx]; exact div_nonneg (h1 hw) hkpos.le
      rw [if_neg (not_lt.mpr hnn)]
    · simp only [if_neg hw]
      have hwpos : 0 < Real.sqrt (wind_dir_x * wind_dir_x + wind_dir_z * wind_dir_z) :=
        lt_of_lt_of_le (by norm_num) (not_lt.mp hw)
      have hx : kx * (wind_dir_x / Real.sqrt (wind_dir_x * wind_dir_x + wind_dir_z * wind_dir_z)) +
          kz * (wind_dir_z / Real.sqrt (wind_dir_x * wind_dir_x + wind_dir_z * wind_dir_z)) =
          (kx * wind_dir_x + kz * wind_dir_z) /
            Real.sqrt (wind_dir_x * wind_dir_x + wind_dir_z * wind_dir_z) := by
        ring
      have hnn : 0 ≤ (kx * (wind_dir_x / Real.sqrt (wind_dir_x * wind_dir_x + wind_dir_z * wind_dir_z)) +
          kz * (wind_dir_z / Real.sqrt (wind_dir_x * wind_dir_x + wind_dir_z * wind_dir_z))) /
          Real.sqrt (kx * kx + kz * kz) := by
        rw [hx]
        exact div_nonneg (div_nonneg (h2 hw) hwpos.le) hkpos.le
      rw [if_neg (not_lt.mpr hnn)]

/-- Witness for the amended C5 at `(kx, kz) = (1, 0)`, `wind_speed = 15`,
`wind_dir = (1, 0)`. -/
theorem phillips_clamp_redundant_witness :
    (Real.sqrt ((1:ℝ) * 1 + 0 * 0) < 0.0001 → (0:ℝ) ≤ 1) ∧
    (¬ Real.sqrt ((1:ℝ) * 1 + 0 * 0) < 0.0001 → (0:ℝ) ≤ 1 * 1 + 0 * 0) ∧
    phillips_spectrum 1 0 15 1 0 9.81 = phillips_noclamp 1 0 15 1 0 9.81 :=
  ⟨fun _ => by norm_num, fun _ => by norm_num,
    phillips_clamp_redundant_of_aligned 1 0 15 1 0 (fun _ => by norm_num)
      (fun _ => by norm_num)⟩

/-- C5 counterexample: at `(kx, kz) = (-1, 0)` with wind `(1, 0)` the clamped
spectrum is `0` while the unclamped one is positive — the clamp does change
the returned value, so the two variants are not extensionally equal. -/
theorem phillips_clamp_counterexample :
    phillips_spectrum (-1) 0 15 1 0 9.81 ≠ phillips_noclamp (-1) 0 15 1 0 9.81 := by
  have hL : phillips_spectrum (-1) 0 15 1 0 9.81 = 0 := by
    simp only [phillips_spectrum]
    rw [show (-1 : ℝ) * -1 + 0 * 0 = 1 by norm_num, Real.sqrt_one]
    rw [show (1 : ℝ) * 1 + 0 * 0 = 1 by norm_num, Real.sqrt_one]
    norm_num
  have hR : 0 < phillips_noclamp (-1) 0 15 1 0 9.81 := by
    simp only [phillips_noclamp]
    rw [show (-1 : ℝ) * -1 + 0 * 0 = 1 by norm_num, Real.sqrt_one]
    rw [show (1 : ℝ) * 1 + 0 * 0 = 1 by norm_num, Real.sqrt_one]
    norm_num
    positivity
  rw [hL]
  exact (ne_of_lt hR)

/-- C8 (amended): the Phillips spectrum is invariant under simultaneously
negating the wave vector and the wind direction, provided the wind direction
has magnitude at least `1e-4` (below that threshold both calls replace the
wind by the fixed direction `(1, 0)`, which breaks the symmetry). -/
theorem phillips_negation_symmetric (kx kz wind_speed wind_dir_x wind_dir_z : ℝ)
    (hw : 0.0001 ≤ Real.sqrt (wind_dir_x * wind_dir_x + wind_dir_z * wind_dir_z)) :
    phillips_spectrum (-kx) (-kz) wind_speed (-wind_dir_x) (-wind_dir_z) 9.81 =
      phillips_spectrum kx kz wind_speed wind_dir_x wind_dir_z 9.81 := by
  have hk : Real.sqrt (-kx * -kx + -kz * -kz) = Real.sqrt (kx * kx + kz * kz) := by
    congr 1; ring
  have hwq : Real.sqrt (-wind_dir_x * -wind_dir_x + -wind_dir_z * -wind_dir_z) =
      Real.sqrt (wind_dir_x * wind_dir_x + wind_dir_z * wind_dir_z) := by
    congr 1; ring
  simp only [phillips_spectrum, hk, hwq]
  by_cases h1 : Real.sqrt (kx * kx + kz * kz) < 0.0001
  · rw [if_pos h1, if_pos h1]
  · rw [if_neg h1, if_neg h1]
    simp only [if_neg (not_lt.mpr hw)]
    have hc : (-kx * (-wind_dir_x / Real.sqrt (wind_dir_x * wind_dir_x + wind_dir_z * wind_dir_z)) +
        -kz * (-wind_dir_z / Real.sqrt (wind_dir_x * wind_dir_x + wind_dir_z * wind_dir_z))) /
        Real.sqrt (kx * kx + kz * kz) =
        (kx * (wind_dir_x / Real.sqrt (wind_dir_x * wind_dir_x + wind_dir_z * wind_dir_z)) +
        kz * (wind_dir_z / Real.sqrt (wind_dir_x * wind_dir_x + wind_dir_z * wind_dir_z))) /
        Real.sqrt (kx * kx + kz * kz) := by
      ring
    rw [hc]

/-- Witness for the amended C8 at `(kx, kz) = (1, 0)`, `wind_speed = 15`,
`wind_dir = (1, 0)`. -/
theorem phillips_negation_symmetric_witness :
    (0.0001 : ℝ) ≤ Real.sqrt ((1:ℝ) * 1 + 0 * 0) ∧
    phillips_spectrum (-1) (-0) 15 (-1) (-0) 9.81 = phillips_spectrum 1 0 15 1 0 9.81 :=
  ⟨by rw [show (1:ℝ) * 1 + 0 * 0 = 1 by norm_num, Real.sqrt_one]; norm_num,
    phillips_negation_symmetric 1 0 15 1 0
      (by rw [show (1:ℝ) * 1 + 0 * 0 = 1 by norm_num, Real.sqrt_one]; norm_num)⟩

/-- C8 counterexample: simultaneous negation is not an invariance at the
near-zero wind direction `(0, 0)`: with `(kx, kz) = (1, 0)`, `wind_speed =
15`, both calls fall back to the default wind `(1, 0)`, so the negated call
clamps its alignment to `0` and returns `0` while the original returns a
positive energy. -/
theorem phillips_negation_counterexample :
    phillips_spectrum (-1) (-0) 15 (-0) (-0) 9.81 ≠ phillips_spectrum 1 0 15 0 0 9.81 := by
  have hL : phillips_spectrum (-1) (-0) 15 (-0) (-0) 9.81 = 0 := by
    simp only [phillips_spectrum]
    rw [show (-1 : ℝ) * -1 + -0 * -0 = 1 by norm_num, Real.sqrt_one]
    rw [show (-0 : ℝ) * -0 + -0 * -0 = 0 by norm_num, Real.sqrt_zero]
    norm_num
  have hR : 0 < phillips_spectrum 1 0 15 0 0 9.81 := by
    simp only [phillips_spectrum]
    rw [show (1 : ℝ) * 1 + 0 * 0 = 1 by norm_num, Real.sqrt_one]
    rw [show (0 : ℝ) * 0 + 0 * 0 = 0 by norm_num, Real.sqrt_zero]
    norm_num
    positivity
  rw [hL]
  exact (ne_of_lt hR)

/-- C6 counterexample: the engine performs no construction-time validation.
At `patch_size = 0` the evaluation dies with `ZeroDivisionError` (an
arithmetic exception, not an "invalid parameter" rejection), and at the
invalid parameters `resolution = 0`, `patch_size = -1` it silently returns
the numeric triple `(0, 0, 0)` instead of failing fast. -/
theorem tessendorf_run_counterexample :
    tessendorf_run RDelta 0 0 0 8 0 15 1 0 1 1 42 0 =
      Except.error "ZeroDivisionError" ∧
    tessendorf_run RDelta 0 0 0 0 (-1) 15 1 0 1 1 42 0 =
      Except.ok ((0, 0, 0), 0) := by
  constructor
  · simp [tessendorf_run]
  · rw [tessendorf_run, if_neg (by norm_num)]
    rfl

/-- C6 (amended): the code rejects nothing: a zero `patch_size` makes the very
first statement `dk = 2π/patch_size` raise `ZeroDivisionError`, while any
nonzero (even negative) `patch_size` — and in particular a zero `resolution`,
whose lattice is empty — produces an ordinary numeric result with no
invalid-parameter error of any kind. -/
theorem tessendorf_run_no_validation :
    (∀ {σ : Type} (R : RNGImpl σ) (x z time : ℝ) (resolution : ℤ)
        (ws wdx wdz amp chop : ℝ) (seed : ℤ) (s0 : σ),
      tessendorf_run R x z time resolution 0 ws wdx wdz amp chop seed s0 =
        Except.error "ZeroDivisionError") ∧
    (∀ {σ : Type} (R : RNGImpl σ) (x z time : ℝ)
        (ws wdx wdz amp chop : ℝ) (seed : ℤ) (s0 : σ),
      tessendorf_run R x z time 0 (-1) ws wdx wdz amp chop seed s0 =
        Except.ok ((0, 0, 0), R.seedFn seed)) := by
  constructor
  · intro σ R x z time resolution ws wdx wdz amp chop seed s0
    simp [tessendorf_run]
  · intro σ R x z time ws wdx wdz amp chop seed s0
    rw [tessendorf_run, if_neg (by norm_num)]
    rfl

theorem tessStep_origin {σ : Type} (R : RNGImpl σ)
    (x z time dk ws wdx wdz amp chop : ℝ) (acc : (ℝ × ℝ × ℝ) × σ) (a b : ℤ)
    (h0 : a = 0 ∧ b = 0) :
    tessStep R x z time dk ws wdx wdz amp chop acc (a, b) = acc := by
  simp [tessStep, h0]

theorem tessStep_small {σ : Type} (R : RNGImpl σ)
    (x z time dk ws wdx wdz amp chop : ℝ) (acc : (ℝ × ℝ × ℝ) × σ) (a b : ℤ)
    (h0 : ¬(a = 0 ∧ b = 0))
    (hs : Real.sqrt ((a : ℝ) * dk * ((a : ℝ) * dk) + (b : ℝ) * dk * ((b : ℝ) * dk)) < 0.0001) :
    tessStep R x z time dk ws wdx wdz amp chop acc (a, b) = acc := by
  simp only [tessStep, if_neg h0]
  rw [if_pos hs]

theorem tessStep_body {σ : Type} (R : RNGImpl σ)
    (x z time dk ws wdx wdz amp chop : ℝ) (acc : (ℝ × ℝ × ℝ) × σ) (a b : ℤ)
    (h0 : ¬(a = 0 ∧ b = 0))
    (hs : ¬ Real.sqrt ((a : ℝ) * dk * ((a : ℝ) * dk) + (b : ℝ) * dk * ((b : ℝ) * dk)) < 0.0001) :
    tessStep R x z time dk ws wdx wdz amp chop acc (a, b) =
      ((acc.1.1 + waveContribution R x z time dk ws wdx wdz amp acc.2 a b,
        (if 0.0001 < Real.sqrt ((a : ℝ) * dk * ((a : ℝ) * dk) + (b : ℝ) * dk * ((b : ℝ) * dk)) then
          acc.1.2.1 + -chop * ((a : ℝ) * dk /
            Real.sqrt ((a : ℝ) * dk * ((a : ℝ) * dk) + (b : ℝ) * dk * ((b : ℝ) * dk))) *
            waveContribution R x z time dk ws wdx wdz amp acc.2 a b
        else acc.1.2.1),
        (if 0.0001 < Real.sqrt ((a : ℝ) * dk * ((a : ℝ) * dk) + (b : ℝ) * dk * ((b : ℝ) * dk)) then
          acc.1.2.2 + -chop * ((b : ℝ) * dk /
            Real.sqrt ((a : ℝ) * dk * ((a : ℝ) * dk) + (b : ℝ) * dk * ((b : ℝ) * dk))) *
            waveContribution R x z time dk ws wdx wdz amp acc.2 a b
        else acc.1.2.2)),
       (R.gaussStep (R.gaussStep acc.2).2).2) := by
  simp only [tessStep, waveContribution, if_neg h0]
  rw [if_neg hs]

theorem tessStep_foldl_chop {σ : Type} (R : RNGImpl σ)
    (x z time dk ws wdx wdz amp c : ℝ) (l : List (ℤ × ℤ)) :
    ∀ (h dx dz : ℝ) (s : σ),
      l.foldl (tessStep R x z time dk ws wdx wdz amp c) ((h, c * dx, c * dz), s) =
        (((l.foldl (tessStep R x z time dk ws wdx wdz amp 1) ((h, dx, dz), s)).1.1,
          c * (l.foldl (tessStep R x z time dk ws wdx wdz amp 1) ((h, dx, dz), s)).1.2.1,
          c * (l.foldl (tessStep R x z time dk ws wdx wdz amp 1) ((h, dx, dz), s)).1.2.2),
         (l.foldl (tessStep R x z time dk ws wdx wdz amp 1) ((h, dx, dz), s)).2) := by
  induction l with
  | nil => intro h dx dz s; simp
  | cons p rest ih =>
    rcases p with ⟨a, b⟩
    intro h dx dz s
    simp only [List.foldl_cons]
    by_cases h0 : a = 0 ∧ b = 0
    · rw [tessStep_origin R x z time dk ws wdx wdz amp c _ a b h0,
        tessStep_origin R x z time dk ws wdx wdz amp 1 _ a b h0]
      exact ih h dx dz s
    · by_cases hsm :
        Real.sqrt ((a : ℝ) * dk * ((a : ℝ) * dk) + (b : ℝ) * dk * ((b : ℝ) * dk)) < 0.0001
      · rw [tessStep_small R x z time dk ws wdx wdz amp c _ a b h0 hsm,
          tessStep_small R x z time dk ws wdx wdz amp 1 _ a b h0 hsm]
        exact ih h dx dz s
      · rw [tessStep_body R x z time dk ws wdx wdz amp c _ a b h0 hsm,
          tessStep_body R x z time dk ws wdx wdz amp 1 _ a b h0 hsm]
        have e1 : (if 0.0001 < Real.sqrt ((a : ℝ) * dk * ((a : ℝ) * dk) +
              (b : ℝ) * dk * ((b : ℝ) * dk)) then
            c * dx + -c * ((a : ℝ) * dk /
              Real.sqrt ((a : ℝ) * dk * ((a : ℝ) * dk) + (b : ℝ) * dk * ((b : ℝ) * dk))) *
              waveContribution R x z time dk ws wdx wdz amp s a b
          else c * dx) =
            c * (if 0.0001 < Real.sqrt ((a : ℝ) * dk * ((a : ℝ) * dk) +
                (b : ℝ) * dk * ((b : ℝ) * dk)) then
              dx + -1 * ((a : ℝ) * dk /
                Real.sqrt ((a : ℝ) * dk * ((a : ℝ) * dk) + (b : ℝ) * dk * ((b : ℝ) * dk))) *
                waveContribution R x z time dk ws wdx wdz amp s a b
            else dx) := by
          split_ifs <;> ring
        have e2 : (if 0.0001 < Real.sqrt ((a : ℝ) * dk * ((a : ℝ) * dk) +
              (b : ℝ) * dk * ((b : ℝ) * dk)) then
            c * dz + -c * ((b : ℝ) * dk /
              Real.sqrt ((a : ℝ) * dk * ((a : ℝ) * dk) + (b : ℝ) * dk * ((b : ℝ) * dk))) *
              waveContribution R x z time dk ws wdx wdz amp s a b
          else c * dz) =
            c * (if 0.0001 < Real.sqrt ((a : ℝ) * dk * ((a : ℝ) * dk) +
                (b : ℝ) * dk * ((b : ℝ) * dk)) then
              dz + -1 * ((b : ℝ) * dk /
                Real.sqrt ((a : ℝ) * dk * ((a : ℝ) * dk) + (b : ℝ) * dk * ((b : ℝ) * dk))) *
                waveContribution R x z time dk ws wdx wdz amp s a b
            else dz) := by
          split_ifs <;> ring
        rw [e1, e2]
        exact ih _ _ _ _

/-- C10: the height returned by `tessendorf_displacement` does not depend on
`choppiness`, and both displacement components are linear in it: evaluating
with choppiness `c` returns the height of the `choppiness = 1` evaluation and
exactly `c` times its displacement pair (so `choppiness = 0` gives
displacement exactly `(0, 0)`). -/
theorem tessendorf_choppiness_linear {σ : Type} (R : RNGImpl σ)
    (x z time : ℝ) (resolution : ℤ)
    (patch_size wind_speed wind_dir_x wind_dir_z wave_amplitude c : ℝ)
    (seed : ℤ) (s0 : σ) :
    (tessendorf_displacement R x z time resolution patch_size wind_speed wind_dir_x
        wind_dir_z wave_amplitude c seed s0).1.1 =
      (tessendorf_displacement R x z time resolution patch_size wind_speed wind_dir_x
        wind_dir_z wave_amplitude 1 seed s0).1.1 ∧
    (tessendorf_displacement R x z time resolution patch_size wind_speed wind_dir_x
        wind_dir_z wave_amplitude c seed s0).1.2.1 =
      c * (tessendorf_displacement R x z time resolution patch_size wind_speed wind_dir_x
        wind_dir_z wave_amplitude 1 seed s0).1.2.1 ∧
    (tessendorf_displacement R x z time resolution patch_size wind_speed wind_dir_x
        wind_dir_z wave_amplitude c seed s0).1.2.2 =
      c * (tessendorf_displacement R x z time resolution patch_size wind_speed wind_dir_x
        wind_dir_z wave_amplitude 1 seed s0).1.2.2 := by
  have key := tessStep_foldl_chop R x z time (2 * Real.pi / patch_size) wind_speed
    wind_dir_x wind_dir_z wave_amplitude c (latticePairs resolution) 0 0 0 (R.seedFn seed)
  rw [show ((0 : ℝ), c * 0, c * 0) = ((0 : ℝ), (0 : ℝ), (0 : ℝ)) by norm_num] at key
  simp only [tessendorf_displacement]
  rw [key]
  exact ⟨rfl, rfl, rfl⟩

theorem radial_core (L s k1 k2 : ℝ) (hL : 0 < L) (hk1 : 0 < k1)
    (h1L : 1 ≤ k1 * L) (h12 : k1 ≤ k2) :
    Real.exp (-1 / (k2 * L * (k2 * L))) * Real.exp (-(k2 * k2) * s * s) /
        (k2 * k2 * (k2 * k2)) ≤
      Real.exp (-1 / (k1 * L * (k1 * L))) * Real.exp (-(k1 * k1) * s * s) /
        (k1 * k1 * (k1 * k1)) := by
  have hk2 : 0 < k2 := lt_of_lt_of_le hk1 h12
  have hq1 : (0 : ℝ) < k1 * k1 * (k1 * k1) := by positivity
  have hq2 : (0 : ℝ) < k2 * k2 * (k2 * k2) := by positivity
  rw [div_le_div_iff hq2 hq1, ← Real.exp_add, ← Real.exp_add]
  have hD1 : (1 : ℝ) ≤ k1 * L * (k1 * L) := by nlinarith
  have hD1pos : (0 : ℝ) < k1 * L * (k1 * L) := by positivity
  have hD2pos : (0 : ℝ) < k2 * L * (k2 * L) := by positivity
  have ht0 : (0 : ℝ) < k1 * k1 / (k2 * k2) := by positivity
  have ht1 : k1 * k1 / (k2 * k2) ≤ 1 := by
    rw [div_le_one (by positivity)]
    nlinarith
  have hA : -1 / (k2 * L * (k2 * L)) + -(k2 * k2) * s * s -
      (-1 / (k1 * L * (k1 * L)) + -(k1 * k1) * s * s) ≤ 1 - k1 * k1 / (k2 * k2) := by
    have e1 : -1 / (k2 * L * (k2 * L)) + -(k2 * k2) * s * s -
        (-1 / (k1 * L * (k1 * L)) + -(k1 * k1) * s * s) =
        (1 / (k1 * L * (k1 * L)) - 1 / (k2 * L * (k2 * L))) -
          s * s * (k2 * k2 - k1 * k1) := by
      ring
    have h2 : 0 ≤ s * s * (k2 * k2 - k1 * k1) :=
      mul_nonneg (mul_self_nonneg s) (by nlinarith)
    have key : 1 / (k1 * L * (k1 * L)) - 1 / (k2 * L * (k2 * L)) =
        (1 - k1 * k1 / (k2 * k2)) / (k1 * L * (k1 * L)) := by
      field_simp
      ring
    have h3 : 1 / (k1 * L * (k1 * L)) - 1 / (k2 * L * (k2 * L)) ≤
        1 - k1 * k1 / (k2 * k2) := by
      rw [key]
      exact div_le_self (by linarith) hD1
    rw [e1]
    linarith
  have hexp2 : Real.exp (1 - k1 * k1 / (k2 * k2)) ≤ 1 / (k1 * k1 / (k2 * k2)) := by
    have h := Real.add_one_le_exp (k1 * k1 / (k2 * k2) - 1)
    have ht' : k1 * k1 / (k2 * k2) ≤ Real.exp (k1 * k1 / (k2 * k2) - 1) := by linarith
    rw [show (1 - k1 * k1 / (k2 * k2)) = -(k1 * k1 / (k2 * k2) - 1) by ring, Real.exp_neg,
      inv_eq_one_div]
    exact one_div_le_one_div_of_le ht0 ht'
  have hexp3 : (1 : ℝ) / (k1 * k1 / (k2 * k2)) ≤
      k2 * k2 * (k2 * k2) / (k1 * k1 * (k1 * k1)) := by
    have e : k2 * k2 * (k2 * k2) / (k1 * k1 * (k1 * k1)) =
        1 / (k1 * k1 / (k2 * k2) * (k1 * k1 / (k2 * k2))) := by
      rw [one_div, div_mul_div_comm, inv_div]
    rw [e]
    have hsq : k1 * k1 / (k2 * k2) * (k1 * k1 / (k2 * k2)) ≤ k1 * k1 / (k2 * k2) := by
      nlinarith
    exact one_div_le_one_div_of_le (by positivity) hsq
  have hfinal : Real.exp (-1 / (k2 * L * (k2 * L)) + -(k2 * k2) * s * s -
      (-1 / (k1 * L * (k1 * L)) + -(k1 * k1) * s * s)) ≤
      k2 * k2 * (k2 * k2) / (k1 * k1 * (k1 * k1)) :=
    le_trans (le_trans (Real.exp_le_exp.mpr hA) hexp2) hexp3
  have hsplit : Real.exp (-1 / (k2 * L * (k2 * L)) + -(k2 * k2) * s * s) =
      Real.exp (-1 / (k1 * L * (k1 * L)) + -(k1 * k1) * s * s) *
        Real.exp (-1 / (k2 * L * (k2 * L)) + -(k2 * k2) * s * s -
          (-1 / (k1 * L * (k1 * L)) + -(k1 * k1) * s * s)) := by
    rw [← Real.exp_add]
    congr 1
    ring
  rw [hsplit]
  calc Real.exp (-1 / (k1 * L * (k1 * L)) + -(k1 * k1) * s * s) *
        Real.exp (-1 / (k2 * L * (k2 * L)) + -(k2 * k2) * s * s -
          (-1 / (k1 * L * (k1 * L)) + -(k1 * k1) * s * s)) * (k1 * k1 * (k1 * k1)) ≤
      Real.exp (-1 / (k1 * L * (k1 * L)) + -(k1 * k1) * s * s) *
        (k2 * k2 * (k2 * k2) / (k1 * k1 * (k1 * k1))) * (k1 * k1 * (k1 * k1)) := by
        exact mul_le_mul_of_nonneg_right
          (mul_le_mul_of_nonneg_left hfinal (Real.exp_pos _).le) hq1.le
    _ = Real.exp (-1 / (k1 * L * (k1 * L)) + -(k1 * k1) * s * s) *
        (k2 * k2 * (k2 * k2)) := by
        field_simp

theorem phillips_tail_mono (L k1 k2 m : ℝ) (hL : 0 < L) (hk1 : 0 < k1)
    (h1L : 1 ≤ k1 * L) (h12 : k1 ≤ k2) :
    0.0081 * (Real.exp (-1 / (k2 * L * (k2 * L))) *
        Real.exp (-(k2 * k2) * (L / 1000) * (L / 1000))) / (k2 * k2 * (k2 * k2)) * (m * m) ≤
      0.0081 * (Real.exp (-1 / (k1 * L * (k1 * L))) *
        Real.exp (-(k1 * k1) * (L / 1000) * (L / 1000))) / (k1 * k1 * (k1 * k1)) * (m * m) := by
  have hcore := radial_core L (L / 1000) k1 k2 hL hk1 h1L h12
  have hnn : (0 : ℝ) ≤ 0.0081 * (m * m) := mul_nonneg (by norm_num) (mul_self_nonneg m)
  calc 0.0081 * (Real.exp (-1 / (k2 * L * (k2 * L))) *
        Real.exp (-(k2 * k2) * (L / 1000) * (L / 1000))) / (k2 * k2 * (k2 * k2)) * (m * m)
      = Real.exp (-1 / (k2 * L * (k2 * L))) *
          Real.exp (-(k2 * k2) * (L / 1000) * (L / 1000)) / (k2 * k2 * (k2 * k2)) *
          (0.0081 * (m * m)) := by ring
    _ ≤ Real.exp (-1 / (k1 * L * (k1 * L))) *
          Real.exp (-(k1 * k1) * (L / 1000) * (L / 1000)) / (k1 * k1 * (k1 * k1)) *
          (0.0081 * (m * m)) := mul_le_mul_of_nonneg_right hcore hnn
    _ = 0.0081 * (Real.exp (-1 / (k1 * L * (k1 * L))) *
          Real.exp (-(k1 * k1) * (L / 1000) * (L / 1000))) / (k1 * k1 * (k1 * k1)) *
          (m * m) := by ring

/-- C9 (amended): along a fixed unit direction `(ux, uz)` and fixed wind, the
Phillips energy decreases monotonically in the magnitude once it exceeds both
the wind-limited scale `1/L` (`L = wind_speed²/9.81`) and the DC-guard cutoff
`1e-4` (the extra cutoff hypothesis is needed: a magnitude in `[1/L, 1e-4)`
is sent to `0` by the guard, below any positive downwind energy). -/
theorem phillips_radial_monotone (ws ux uz wdx wdz k1 k2 : ℝ)
    (hws : 0 < ws) (hu : ux * ux + uz * uz = 1)
    (hcut : 0.0001 ≤ k1) (hwind : 1 / (ws * ws / 9.81) ≤ k1) (h12 : k1 ≤ k2) :
    phillips_spectrum (k2 * ux) (k2 * uz) ws wdx wdz 9.81 ≤
      phillips_spectrum (k1 * ux) (k1 * uz) ws wdx wdz 9.81 := by
  have hk1 : (0 : ℝ) < k1 := lt_of_lt_of_le (by norm_num) hcut
  have hk2 : (0 : ℝ) < k2 := lt_of_lt_of_le hk1 h12
  have hk2cut : (0.0001 : ℝ) ≤ k2 := le_trans hcut h12
  have hLpos : (0 : ℝ) < ws * ws / 9.81 := by positivity
  have h1L : 1 ≤ k1 * (ws * ws / 9.81) := by
    rw [div_le_iff hLpos] at hwind
    linarith
  have hm1 : Real.sqrt (k1 * ux * (k1 * ux) + k1 * uz * (k1 * uz)) = k1 := by
    rw [show k1 * ux * (k1 * ux) + k1 * uz * (k1 * uz) =
      k1 ^ 2 * (ux * ux + uz * uz) by ring, hu, mul_one, Real.sqrt_sq hk1.le]
  have hm2 : Real.sqrt (k2 * ux * (k2 * ux) + k2 * uz * (k2 * uz)) = k2 := by
    rw [show k2 * ux * (k2 * ux) + k2 * uz * (k2 * uz) =
      k2 ^ 2 * (ux * ux + uz * uz) by ring, hu, mul_one, Real.sqrt_sq hk2.le]
  simp only [phillips_spectrum, hm1, hm2]
  rw [if_neg (not_lt.mpr hk2cut), if_neg (not_lt.mpr hcut)]
  by_cases hw : Real.sqrt (wdx * wdx + wdz * wdz) < 0.0001
  · simp only [if_pos hw]
    have hc2 : (k2 * ux * (1 / 1) + k2 * uz * (0 / 1)) / k2 = ux * (1 / 1) + uz * (0 / 1) := by
      field_simp
    have hc1 : (k1 * ux * (1 / 1) + k1 * uz * (0 / 1)) / k1 = ux * (1 / 1) + uz * (0 / 1) := by
      field_simp
    rw [hc1, hc2]
    exact phillips_tail_mono (ws * ws / 9.81) k1 k2 _ hLpos hk1 h1L h12
  · simp only [if_neg hw]
    have hc2 : (k2 * ux * (wdx / Real.sqrt (wdx * wdx + wdz * wdz)) +
        k2 * uz * (wdz / Real.sqrt (wdx * wdx + wdz * wdz))) / k2 =
        ux * (wdx / Real.sqrt (wdx * wdx + wdz * wdz)) +
        uz * (wdz / Real.sqrt (wdx * wdx + wdz * wdz)) := by
      rw [div_eq_iff hk2.ne']
      ring
    have hc1 : (k1 * ux * (wdx / Real.sqrt (wdx * wdx + wdz * wdz)) +
        k1 * uz * (wdz / Real.sqrt (wdx * wdx + wdz * wdz))) / k1 =
        ux * (wdx / Real.sqrt (wdx * wdx + wdz * wdz)) +
        uz * (wdz / Real.sqrt (wdx * wdx + wdz * wdz)) := by
      rw [div_eq_iff hk1.ne']
      ring
    rw [hc1, hc2]
    exact phillips_tail_mono (ws * ws / 9.81) k1 k2 _ hLpos hk1 h1L h12

/-- Witness for the amended C9: `wind_speed = 15`, direction `(1, 0)`, wind
`(1, 0)`, magnitudes `1 ≤ 2` (both above `1/L = 9.81/225` and `1e-4`). -/
theorem phillips_radial_monotone_witness :
    (0 : ℝ) < 15 ∧ ((1 : ℝ) * 1 + 0 * 0 = 1) ∧ ((0.0001 : ℝ) ≤ 1) ∧
      (1 / ((15 : ℝ) * 15 / 9.81) ≤ 1) ∧ ((1 : ℝ) ≤ 2) ∧
      phillips_spectrum (2 * 1) (2 * 0) 15 1 0 9.81 ≤
        phillips_spectrum (1 * 1) (1 * 0) 15 1 0 9.81 :=
  ⟨by norm_num, by norm_num, by norm_num, by norm_num, by norm_num,
    phillips_radial_monotone 15 1 0 1 0 1 2 (by norm_num) (by norm_num) (by norm_num)
      (by norm_num) (by norm_num)⟩

/-- C9 counterexample: with `wind_speed = 1000` the wind scale `1/L =
9.81·10⁻⁶` lies below the DC guard, so at `k1 = 1/L` (along direction
`(1, 0)`, wind `(1, 0)`) the spectrum is `0` while at the larger magnitude
`k2 = 1` it is positive: the energy increases beyond `1/L`, refuting the
claim as stated. -/
theorem phillips_radial_counterexample :
    (1 / ((1000 : ℝ) * 1000 / 9.81) ≤ 0.00000981) ∧ ((0.00000981 : ℝ) < 1) ∧
      phillips_spectrum 0.00000981 0 1000 1 0 9.81 <
        phillips_spectrum 1 0 1000 1 0 9.81 := by
  refine ⟨by norm_num, by norm_num, ?_⟩
  have hsmall : phillips_spectrum 0.00000981 0 1000 1 0 9.81 = 0 := by
    simp only [phillips_spectrum]
    rw [show (0.00000981 : ℝ) * 0.00000981 + 0 * 0 = 0.00000981 ^ 2 by ring,
      Real.sqrt_sq (by norm_num)]
    rw [if_pos (by norm_num)]
  have hbig : 0 < phillips_spectrum 1 0 1000 1 0 9.81 := by
    simp only [phillips_spectrum]
    rw [show (1 : ℝ) * 1 + 0 * 0 = 1 by norm_num, Real.sqrt_one]
    norm_num
    positivity
  rw [hsmall]
  exact hbig

theorem specWaveTerm_eval {σ : Type} (R : RNGImpl σ) (sd : σ) (j : ℕ)
    (x z time dk ws wdx wdz amp chop : ℝ) (a b : ℤ) :
    specWaveTerm (rngStream R sd j) (rngStream R sd (j + 1)) x z time dk ws wdx wdz
        amp chop a b =
      (waveContribution R x z time dk ws wdx wdz amp (rngStates R sd j) a b,
       -(chop * ((a : ℝ) * dk /
           Real.sqrt ((a : ℝ) * dk * ((a : ℝ) * dk) + (b : ℝ) * dk * ((b : ℝ) * dk))) *
         waveContribution R x z time dk ws wdx wdz amp (rngStates R sd j) a b),
       -(chop * ((b : ℝ) * dk /
           Real.sqrt ((a : ℝ) * dk * ((a : ℝ) * dk) + (b : ℝ) * dk * ((b : ℝ) * dk))) *
         waveContribution R x z time dk ws wdx wdz amp (rngStates R sd j) a b)) := by
  have hg1 : rngStream R sd j = (R.gaussStep (rngStates R sd j)).1 := rfl
  have hg2 : rngStream R sd (j + 1) = (R.gaussStep (R.gaussStep (rngStates R sd j)).2).1 := rfl
  have h05 : phillips_spectrum ((a : ℝ) * dk) ((b : ℝ) * dk) ws wdx wdz 9.81 / 2 =
      phillips_spectrum ((a : ℝ) * dk) ((b : ℝ) * dk) ws wdx wdz 9.81 * 0.5 := by
    ring
  simp only [specWaveTerm, waveContribution, hg1, hg2, h05, Prod.mk.injEq]
  refine ⟨by ring, by ring, by ring⟩

theorem tess_foldl_eq_specSweep {σ : Type} (R : RNGImpl σ) (sd : σ)
    (x z time dk ws wdx wdz amp chop : ℝ) :
    ∀ l : List (ℤ × ℤ),
      (∀ a b : ℤ, (a, b) ∈ l → ¬(a = 0 ∧ b = 0) →
        0.0001 < Real.sqrt ((a : ℝ) * dk * ((a : ℝ) * dk) + (b : ℝ) * dk * ((b : ℝ) * dk))) →
      ∀ (acc : ℝ × ℝ × ℝ) (j : ℕ),
        List.foldl (tessStep R x z time dk ws wdx wdz amp chop)
            (acc, rngStates R sd j) l =
          (acc + specSweep (rngStream R sd) x z time dk ws wdx wdz amp chop l j,
            rngStates R sd (j + drawCount l)) := by
  intro l
  induction l with
  | nil =>
    intro _ acc j
    simp only [List.foldl_nil, specSweep, drawCount, Nat.add_zero]
    rw [show ((0 : ℝ), (0 : ℝ), (0 : ℝ)) = (0 : ℝ × ℝ × ℝ) from rfl, add_zero]
  | cons p rest ih =>
    intro hl acc j
    rcases p with ⟨a, b⟩
    simp only [List.foldl_cons]
    by_cases h0 : a = 0 ∧ b = 0
    · rw [tessStep_origin R x z time dk ws wdx wdz amp chop _ a b h0]
      simp only [specSweep, drawCount, if_pos h0, Nat.zero_add]
      exact ih (fun c d hcd => hl c d (List.mem_cons_of_mem _ hcd)) acc j
    · have hs' := hl a b (List.mem_cons_self _ _) h0
      have hs : ¬ Real.sqrt ((a : ℝ) * dk * ((a : ℝ) * dk) +
          (b : ℝ) * dk * ((b : ℝ) * dk)) < 0.0001 := not_lt.mpr (le_of_lt hs')
      rw [tessStep_body R x z time dk ws wdx wdz amp chop _ a b h0 hs]
      rw [if_pos hs', if_pos hs']
      dsimp only
      rw [show (R.gaussStep (R.gaussStep (rngStates R sd j)).2).2 =
        rngStates R sd (j + 2) from rfl]
      rw [ih (fun c d hcd => hl c d (List.mem_cons_of_mem _ hcd)) _ (j + 2)]
      simp only [specSweep, drawCount, if_neg h0]
      rw [specWaveTerm_eval R sd j x z time dk ws wdx wdz amp chop a b]
      have h1 : ((acc.1 + waveContribution R x z time dk ws wdx wdz amp (rngStates R sd j) a b,
          acc.2.1 + -chop * ((a : ℝ) * dk /
            Real.sqrt ((a : ℝ) * dk * ((a : ℝ) * dk) + (b : ℝ) * dk * ((b : ℝ) * dk))) *
            waveContribution R x z time dk ws wdx wdz amp (rngStates R sd j) a b,
          acc.2.2 + -chop * ((b : ℝ) * dk /
            Real.sqrt ((a : ℝ) * dk * ((a : ℝ) * dk) + (b : ℝ) * dk * ((b : ℝ) * dk))) *
            waveContribution R x z time dk ws wdx wdz amp (rngStates R sd j) a b) :
            ℝ × ℝ × ℝ) =
          acc + (waveContribution R x z time dk ws wdx wdz amp (rngStates R sd j) a b,
            -(chop * ((a : ℝ) * dk /
              Real.sqrt ((a : ℝ) * dk * ((a : ℝ) * dk) + (b : ℝ) * dk * ((b : ℝ) * dk))) *
              waveContribution R x z time dk ws wdx wdz amp (rngStates R sd j) a b),
            -(chop * ((b : ℝ) * dk /
              Real.sqrt ((a : ℝ) * dk * ((a : ℝ) * dk) + (b : ℝ) * dk * ((b : ℝ) * dk))) *
              waveContribution R x z time dk ws wdx wdz amp (rngStates R sd j) a b)) := by
        rcases acc with ⟨a1, a2, a3⟩
        simp only [Prod.mk_add_mk, Prod.mk.injEq]
        refine ⟨by ring, by ring, by ring⟩
      rw [h1, add_assoc]
      rw [show j + 2 + drawCount rest = j + (2 + drawCount rest) by omega]

/-- C1 (amended): for parameters with `resolution ≥ 1`, `patch_size > 0`,
`wind_speed > 0` and `dk = 2π/patch_size > 1e-4` (equivalently `patch_size <
2π·10⁴`; without this bound sub-threshold lattice vectors are skipped without
consuming Gaussian draws and the draw alignment differs), the returned triple
is exactly the direct Tessendorf double sum: for each lattice wave vector
`k = (nx·dk, nz·dk)` other than `(0, 0)` it computes the Phillips energy `P`,
forms `h0 = (g1·sqrt(P/2), g2·sqrt(P/2))` from two Gaussian draws of the
seeded source in sweep order, rotates by `ω·t` with `ω = sqrt(9.81·|k|)`, and
accumulates the contribution `wave_amplitude·(ht_real·cosφ − ht_imag·sinφ)`
at spatial phase `φ = kx·x + kz·z` into the height along with the matching
`−choppiness·k̂·contribution` displacement pair. -/
theorem tessendorf_matches_spec_sum {σ : Type} (R : RNGImpl σ)
    (x z time : ℝ) (resolution : ℤ)
    (patch_size wind_speed wind_dir_x wind_dir_z wave_amplitude choppiness : ℝ)
    (seed : ℤ) (s0 : σ)
    (hres : 1 ≤ resolution) (hpatch : 0 < patch_size) (hws : 0 < wind_speed)
    (hdk : 0.0001 < 2 * Real.pi / patch_size) :
    (tessendorf_displacement R x z time resolution patch_size wind_speed wind_dir_x
        wind_dir_z wave_amplitude choppiness seed s0).1 =
      specEvaluate (rngStream R (R.seedFn seed)) x z time resolution patch_size
        wind_speed wind_dir_x wind_dir_z wave_amplitude choppiness := by
  have hdk0 : (0 : ℝ) < 2 * Real.pi / patch_size := lt_trans (by norm_num) hdk
  have hguard : ∀ a b : ℤ, (a, b) ∈ latticePairs resolution → ¬(a = 0 ∧ b = 0) →
      0.0001 < Real.sqrt ((a : ℝ) * (2 * Real.pi / patch_size) *
        ((a : ℝ) * (2 * Real.pi / patch_size)) +
        (b : ℝ) * (2 * Real.pi / patch_size) * ((b : ℝ) * (2 * Real.pi / patch_size))) := by
    intro a b _ hab
    have hab1 : (1 : ℝ) ≤ (a : ℝ) * (a : ℝ) + (b : ℝ) * (b : ℝ) := by
      have hz : (1 : ℤ) ≤ a * a + b * b := by
        rcases not_and_or.mp hab with h | h
        · have h1 : 0 < a * a := mul_self_pos.mpr h
          have h2 : 0 ≤ b * b := mul_self_nonneg b
          omega
        · have h1 : 0 < b * b := mul_self_pos.mpr h
          have h2 : 0 ≤ a * a := mul_self_nonneg a
          omega
      exact_mod_cast hz
    have key : 2 * Real.pi / patch_size * (2 * Real.pi / patch_size) ≤
        (a : ℝ) * (2 * Real.pi / patch_size) * ((a : ℝ) * (2 * Real.pi / patch_size)) +
        (b : ℝ) * (2 * Real.pi / patch_size) * ((b : ℝ) * (2 * Real.pi / patch_size)) := by
      nlinarith
    calc (0.0001 : ℝ) < 2 * Real.pi / patch_size := hdk
      _ = Real.sqrt (2 * Real.pi / patch_size * (2 * Real.pi / patch_size)) :=
        (Real.sqrt_mul_self hdk0.le).symm
      _ ≤ Real.sqrt ((a : ℝ) * (2 * Real.pi / patch_size) *
          ((a : ℝ) * (2 * Real.pi / patch_size)) +
          (b : ℝ) * (2 * Real.pi / patch_size) * ((b : ℝ) * (2 * Real.pi / patch_size))) :=
        Real.sqrt_le_sqrt key
  simp only [tessendorf_displacement, specEvaluate]
  conv_lhs => rw [show R.seedFn seed = rngStates R (R.seedFn seed) 0 from rfl]
  rw [tess_foldl_eq_specSweep R (R.seedFn seed) x z time (2 * Real.pi / patch_size)
    wind_speed wind_dir_x wind_dir_z wave_amplitude choppiness
    (latticePairs resolution) hguard (0, 0, 0) 0]
  dsimp only
  rw [show ((0 : ℝ), (0 : ℝ), (0 : ℝ)) = (0 : ℝ × ℝ × ℝ) from rfl, zero_add]

/-- Witness for the amended C1: `RDelta` over state `ℕ`, `resolution = 2`,
`patch_size = 100` (so `dk = 2π/100 > 1e-4`), `wind_speed = 15`. -/
theorem tessendorf_matches_spec_sum_witness :
    (1 : ℤ) ≤ 2 ∧ (0 : ℝ) < 100 ∧ (0 : ℝ) < 15 ∧
      0.0001 < 2 * Real.pi / 100 ∧
      (tessendorf_displacement RDelta 0 0 0 2 100 15 1 0 1 1 42 0).1 =
        specEvaluate (rngStream RDelta (RDelta.seedFn 42)) 0 0 0 2 100 15 1 0 1 1 :=
  ⟨by norm_num, by norm_num, by norm_num,
    by have := Real.pi_gt_three; rw [lt_div_iff (by norm_num)]; nlinarith,
    tessendorf_matches_spec_sum RDelta 0 0 0 2 100 15 1 0 1 1 42 0 (by norm_num)
      (by norm_num) (by norm_num)
      (by have := Real.pi_gt_three; rw [lt_div_iff (by norm_num)]; nlinarith)⟩

theorem RDelta_gauss (s : ℕ) : RDelta.gaussStep s = (gDelta s, s + 1) := rfl

theorem rngStates_RDelta (n : ℕ) : rngStates RDelta 0 n = n := by
  induction n with
  | zero => rfl
  | succ m ih => simp [rngStates, RDelta_gauss, ih]

theorem rngStream_RDelta (n : ℕ) : rngStream RDelta 0 n = gDelta n := by
  simp [rngStream, rngStates_RDelta, RDelta_gauss]

theorem specWaveTerm_zero_draw (g2 dk ws wdx wdz : ℝ) (a b : ℤ) :
    specWaveTerm 0 g2 0 0 0 dk ws wdx wdz 1 0 a b = (0, 0, 0) := by
  simp [specWaveTerm]

theorem specWaveTerm_P_zero (g2 : ℝ) :
    specWaveTerm 1 g2 0 0 0 (1 / 20000) 15 0 (-1) 1 0 (-1) (-1) = (0, 0, 0) := by
  have hP : phillips_spectrum (((-1 : ℤ) : ℝ) * (1 / 20000)) (((-1 : ℤ) : ℝ) * (1 / 20000))
      15 0 (-1) 9.81 = 0 := by
    simp only [phillips_spectrum]
    rw [if_pos (by rw [Real.sqrt_lt' (by norm_num)]; push_cast; norm_num)]
  simp only [specWaveTerm]
  rw [hP]
  simp

theorem tessStepDelta_zero (acc : (ℝ × ℝ × ℝ) × ℕ) (a b : ℤ) (h0 : ¬(a = 0 ∧ b = 0))
    (hs : ¬ Real.sqrt ((a : ℝ) * (1 / 20000) * ((a : ℝ) * (1 / 20000)) +
      (b : ℝ) * (1 / 20000) * ((b : ℝ) * (1 / 20000))) < 0.0001)
    (hg1 : gDelta acc.2 = 0) :
    tessStep RDelta 0 0 0 (1 / 20000) 15 0 (-1) 1 0 acc (a, b) = (acc.1, acc.2 + 2) := by
  rw [tessStep_body RDelta 0 0 0 (1 / 20000) 15 0 (-1) 1 0 acc a b h0 hs]
  simp only [waveContribution, RDelta_gauss, hg1, zero_mul, mul_zero, mul_one, one_mul,
    sub_zero, zero_sub, add_zero, zero_add, Real.cos_zero, Real.sin_zero, neg_zero,
    ite_self, Prod.mk.eta]

theorem phillips_hit_pos :
    0 < phillips_spectrum (((0 : ℤ) : ℝ) * (1 / 20000)) (((-2 : ℤ) : ℝ) * (1 / 20000))
      15 0 (-1) 9.81 := by
  simp only [phillips_spectrum]
  rw [show (((0 : ℤ) : ℝ) * (1 / 20000) * (((0 : ℤ) : ℝ) * (1 / 20000)) +
      ((-2 : ℤ) : ℝ) * (1 / 20000) * (((-2 : ℤ) : ℝ) * (1 / 20000))) = (0.0001 : ℝ) ^ 2 by
    push_cast; norm_num, Real.sqrt_sq (by norm_num)]
  rw [show (0 : ℝ) * 0 + (-1 : ℝ) * -1 = 1 by norm_num, Real.sqrt_one]
  norm_num
  positivity

theorem tessStepDelta_hit :
    tessStep RDelta 0 0 0 (1 / 20000) 15 0 (-1) 1 0 ((0, 0, 0), 8) (0, -2) =
      ((Real.sqrt (phillips_spectrum (((0 : ℤ) : ℝ) * (1 / 20000))
          (((-2 : ℤ) : ℝ) * (1 / 20000)) 15 0 (-1) 9.81 * 0.5), 0, 0), 10) := by
  have harg : (((0 : ℤ) : ℝ) * (1 / 20000) * (((0 : ℤ) : ℝ) * (1 / 20000)) +
      ((-2 : ℤ) : ℝ) * (1 / 20000) * (((-2 : ℤ) : ℝ) * (1 / 20000))) = (0.0001 : ℝ) ^ 2 := by
    push_cast; norm_num
  have hsq : Real.sqrt (((0 : ℤ) : ℝ) * (1 / 20000) * (((0 : ℤ) : ℝ) * (1 / 20000)) +
      ((-2 : ℤ) : ℝ) * (1 / 20000) * (((-2 : ℤ) : ℝ) * (1 / 20000))) = 0.0001 := by
    rw [harg]
    exact Real.sqrt_sq (by norm_num)
  have hs : ¬ Real.sqrt (((0 : ℤ) : ℝ) * (1 / 20000) * (((0 : ℤ) : ℝ) * (1 / 20000)) +
      ((-2 : ℤ) : ℝ) * (1 / 20000) * (((-2 : ℤ) : ℝ) * (1 / 20000))) < 0.0001 := by
    rw [hsq]
    norm_num
  have hlt : ¬ (0.0001 : ℝ) < Real.sqrt (((0 : ℤ) : ℝ) * (1 / 20000) *
      (((0 : ℤ) : ℝ) * (1 / 20000)) +
      ((-2 : ℤ) : ℝ) * (1 / 20000) * (((-2 : ℤ) : ℝ) * (1 / 20000))) := by
    rw [hsq]
    norm_num
  rw [tessStep_body RDelta 0 0 0 (1 / 20000) 15 0 (-1) 1 0 ((0, 0, 0), 8) 0 (-2)
    (by norm_num) hs]
  rw [if_neg hlt, if_neg hlt]
  simp only [waveContribution, RDelta_gauss]
  norm_num [gDelta]

/-- C1 counterexample: at `resolution = 3`, `patch_size = 2π·20000` (so
`dk = 1/20000 < 1e-4`), `x = z = time = 0`, `wind_speed = 15`, wind
`(0, -1)`, `wave_amplitude = 1`, `choppiness = 0`, with the seeded Gaussian
stream that is `1` at draw 8 and `0` elsewhere: the code skips the
sub-threshold vectors `(-1, -1)`, `(-1, 0)`, `(0, -1)` without consuming
draws, so its 5th processed vector `(0, -2)` uses draw 8 and returns a
positive height, while the claimed direct double sum spends draw 8 on
`(-1, -1)` (whose Phillips energy is `0`) and sums to zero height. -/
theorem tessendorf_spec_sum_counterexample :
    (tessendorf_displacement RDelta 0 0 0 3 (2 * Real.pi * 20000) 15 0 (-1) 1 0 0 0).1 ≠
      specEvaluate (rngStream RDelta (RDelta.seedFn 0)) 0 0 0 3 (2 * Real.pi * 20000)
        15 0 (-1) 1 0 := by
  have hdkeq : 2 * Real.pi / (2 * Real.pi * 20000) = (1 / 20000 : ℝ) := by
    rw [div_eq_iff (mul_ne_zero (mul_ne_zero two_ne_zero Real.pi_ne_zero)
      (by norm_num : (20000 : ℝ) ≠ 0))]
    ring
  have hlat : latticePairs 3 =
      [(-2, -2), (-2, -1), (-2, 0), (-1, -2), (-1, -1), (-1, 0), (0, -2), (0, -1), (0, 0)] := by
    decide
  have hsm11 : Real.sqrt (((-1 : ℤ) : ℝ) * (1 / 20000) * (((-1 : ℤ) : ℝ) * (1 / 20000)) +
      ((-1 : ℤ) : ℝ) * (1 / 20000) * (((-1 : ℤ) : ℝ) * (1 / 20000))) < 0.0001 := by
    rw [Real.sqrt_lt' (by norm_num)]; push_cast; norm_num
  have hsm10 : Real.sqrt (((-1 : ℤ) : ℝ) * (1 / 20000) * (((-1 : ℤ) : ℝ) * (1 / 20000)) +
      ((0 : ℤ) : ℝ) * (1 / 20000) * (((0 : ℤ) : ℝ) * (1 / 20000))) < 0.0001 := by
    rw [Real.sqrt_lt' (by norm_num)]; push_cast; norm_num
  have hsm01 : Real.sqrt (((0 : ℤ) : ℝ) * (1 / 20000) * (((0 : ℤ) : ℝ) * (1 / 20000)) +
      ((-1 : ℤ) : ℝ) * (1 / 20000) * (((-1 : ℤ) : ℝ) * (1 / 20000))) < 0.0001 := by
    rw [Real.sqrt_lt' (by norm_num)]; push_cast; norm_num
  have hpr22 : ¬ Real.sqrt (((-2 : ℤ) : ℝ) * (1 / 20000) * (((-2 : ℤ) : ℝ) * (1 / 20000)) +
      ((-2 : ℤ) : ℝ) * (1 / 20000) * (((-2 : ℤ) : ℝ) * (1 / 20000))) < 0.0001 := by
    rw [Real.sqrt_lt' (by norm_num)]; push_cast; norm_num
  have hpr21 : ¬ Real.sqrt (((-2 : ℤ) : ℝ) * (1 / 20000) * (((-2 : ℤ) : ℝ) * (1 / 20000)) +
      ((-1 : ℤ) : ℝ) * (1 / 20000) * (((-1 : ℤ) : ℝ) * (1 / 20000))) < 0.0001 := by
    rw [Real.sqrt_lt' (by norm_num)]; push_cast; norm_num
  have hpr20 : ¬ Real.sqrt (((-2 : ℤ) : ℝ) * (1 / 20000) * (((-2 : ℤ) : ℝ) * (1 / 20000)) +
      ((0 : ℤ) : ℝ) * (1 / 20000) * (((0 : ℤ) : ℝ) * (1 / 20000))) < 0.0001 := by
    rw [Real.sqrt_lt' (by norm_num)]; push_cast; norm_num
  have hpr12 : ¬ Real.sqrt (((-1 : ℤ) : ℝ) * (1 / 20000) * (((-1 : ℤ) : ℝ) * (1 / 20000)) +
      ((-2 : ℤ) : ℝ) * (1 / 20000) * (((-2 : ℤ) : ℝ) * (1 / 20000))) < 0.0001 := by
    rw [Real.sqrt_lt' (by norm_num)]; push_cast; norm_num
  have c1 : tessStep RDelta 0 0 0 (1 / 20000) 15 0 (-1) 1 0 ((0, 0, 0), 0) (-2, -2) =
      (((0, 0, 0) : ℝ × ℝ × ℝ), 2) := by
    simpa using tessStepDelta_zero ((0, 0, 0), 0) (-2) (-2) (by norm_num) hpr22
      (by simp [gDelta])
  have c2 : tessStep RDelta 0 0 0 (1 / 20000) 15 0 (-1) 1 0 ((0, 0, 0), 2) (-2, -1) =
      (((0, 0, 0) : ℝ × ℝ × ℝ), 4) := by
    simpa using tessStepDelta_zero ((0, 0, 0), 2) (-2) (-1) (by norm_num) hpr21
      (by simp [gDelta])
  have c3 : tessStep RDelta 0 0 0 (1 / 20000) 15 0 (-1) 1 0 ((0, 0, 0), 4) (-2, 0) =
      (((0, 0, 0) : ℝ × ℝ × ℝ), 6) := by
    simpa using tessStepDelta_zero ((0, 0, 0), 4) (-2) 0 (by norm_num) hpr20
      (by simp [gDelta])
  have c4 : tessStep RDelta 0 0 0 (1 / 20000) 15 0 (-1) 1 0 ((0, 0, 0), 6) (-1, -2) =
      (((0, 0, 0) : ℝ × ℝ × ℝ), 8) := by
    simpa using tessStepDelta_zero ((0, 0, 0), 6) (-1) (-2) (by norm_num) hpr12
      (by simp [gDelta])
  have c5 : tessStep RDelta 0 0 0 (1 / 20000) 15 0 (-1) 1 0 ((0, 0, 0), 8) (-1, -1) =
      (((0, 0, 0) : ℝ × ℝ × ℝ), 8) :=
    tessStep_small RDelta 0 0 0 (1 / 20000) 15 0 (-1) 1 0 _ (-1) (-1) (by norm_num) hsm11
  have c6 : tessStep RDelta 0 0 0 (1 / 20000) 15 0 (-1) 1 0 ((0, 0, 0), 8) (-1, 0) =
      (((0, 0, 0) : ℝ × ℝ × ℝ), 8) :=
    tessStep_small RDelta 0 0 0 (1 / 20000) 15 0 (-1) 1 0 _ (-1) 0 (by norm_num) hsm10
  have c8 : tessStep RDelta 0 0 0 (1 / 20000) 15 0 (-1) 1 0
      ((Real.sqrt (phillips_spectrum (((0 : ℤ) : ℝ) * (1 / 20000))
        (((-2 : ℤ) : ℝ) * (1 / 20000)) 15 0 (-1) 9.81 * 0.5), 0, 0), 10) (0, -1) =
      ((Real.sqrt (phillips_spectrum (((0 : ℤ) : ℝ) * (1 / 20000))
        (((-2 : ℤ) : ℝ) * (1 / 20000)) 15 0 (-1) 9.81 * 0.5), 0, 0), 10) :=
    tessStep_small RDelta 0 0 0 (1 / 20000) 15 0 (-1) 1 0 _ 0 (-1) (by norm_num) hsm01
  have c9 : tessStep RDelta 0 0 0 (1 / 20000) 15 0 (-1) 1 0
      ((Real.sqrt (phillips_spectrum (((0 : ℤ) : ℝ) * (1 / 20000))
        (((-2 : ℤ) : ℝ) * (1 / 20000)) 15 0 (-1) 9.81 * 0.5), 0, 0), 10) (0, 0) =
      ((Real.sqrt (phillips_spectrum (((0 : ℤ) : ℝ) * (1 / 20000))
        (((-2 : ℤ) : ℝ) * (1 / 20000)) 15 0 (-1) 9.81 * 0.5), 0, 0), 10) :=
    tessStep_origin RDelta 0 0 0 (1 / 20000) 15 0 (-1) 1 0 _ 0 0 ⟨rfl, rfl⟩
  have hL : (tessendorf_displacement RDelta 0 0 0 3 (2 * Real.pi * 20000)
      15 0 (-1) 1 0 0 0).1 =
      (Real.sqrt (phillips_spectrum (((0 : ℤ) : ℝ) * (1 / 20000))
        (((-2 : ℤ) : ℝ) * (1 / 20000)) 15 0 (-1) 9.81 * 0.5), 0, 0) := by
    simp only [tessendorf_displacement]
    rw [hdkeq, hlat]
    simp only [List.foldl_cons, List.foldl_nil, show RDelta.seedFn 0 = 0 from rfl]
    rw [c1, c2, c3, c4, c5, c6, tessStepDelta_hit, c8, c9]
  have hRHS : specEvaluate (rngStream RDelta (RDelta.seedFn 0)) 0 0 0 3
      (2 * Real.pi * 20000) 15 0 (-1) 1 0 = ((0 : ℝ), (0 : ℝ), (0 : ℝ)) := by
    simp only [specEvaluate]
    rw [hdkeq, hlat, show RDelta.seedFn 0 = 0 from rfl]
    simp only [specSweep, rngStream_RDelta]
    norm_num [gDelta]
    rw [specWaveTerm_P_zero]
    simp only [specWaveTerm_zero_draw]
    norm_num [Prod.mk_add_mk]
  rw [hL, hRHS]
  intro h
  have h1 := congrArg Prod.fst h
  dsimp only at h1
  rw [Real.sqrt_eq_zero'] at h1
  have hP := phillips_hit_pos
  linarith
